import Mathlib

/- Shallow embedding of src/flipkart_scraper.py (the core scraper module).

   HTML pages are modelled at the granularity at which the scraper queries
   them: a fetched listing page is the list of its `article.product_pod`
   nodes, and each node is abstracted to the four pieces of data that
   `parse_books` reads from it, so BeautifulSoup parsing plus CSS selection
   become the identity on this structured model.  Network fetching
   (`requests.get` + `raise_for_status` inside `get_page`) is an oracle
   `String → Except ScrapeError Page` supplied by the environment, and the
   pandas operations of `scrape_books` are embedded at their call sites.
   Python floats are modelled as rationals; every price string the pipeline
   parses is a string of decimal digits and dots, on which `float` is exact
   decimal parsing. -/

/-- Python exceptions that can escape the scraper, named by the role the
spec assigns them: `fetchError` for `requests` transport / non-success
status errors raised in `get_page`, `parseError` for the
`AttributeError`/`KeyError`/`TypeError` raised in `parse_books` when a
required element or attribute is missing, `normalizationError` for the
`ValueError` raised by `astype(float)` (carrying the string it could not
convert), and `missingColumn` for the `KeyError` raised by `df[col]` when
the DataFrame lacks that column. -/
inductive ScrapeError where
  | fetchError (url : String)
  | parseError
  | normalizationError (s : String)
  | missingColumn (col : String)
  deriving DecidableEq, Repr

instance {ε α : Type} [DecidableEq ε] [DecidableEq α] : DecidableEq (Except ε α) := fun a b =>
  match a, b with
  | .error e, .error f =>
    if h : e = f then isTrue (by rw [h]) else isFalse (fun hh => h (by injection hh))
  | .ok x, .ok y =>
    if h : x = y then isTrue (by rw [h]) else isFalse (fun hh => h (by injection hh))
  | .error _, .ok _ => isFalse (fun hh => by injection hh)
  | .ok _, .error _ => isFalse (fun hh => by injection hh)

/-- One `article.product_pod` node of a listing page, abstracted to the four
queries `parse_books` performs on it:
  * `titleAttr` — the value of `art.h3.a["title"]`; `none` models a missing
    heading, anchor or `title` attribute (any of which makes the Python
    expression raise);
  * `priceText` — the stripped text of `art.select_one("p.price_color")`
    as `get_text(strip=True)` returns it; `none` models a missing element;
  * `availabilityText` — the stripped text of
    `art.select_one("p.instock.availability")`; `none` models a missing
    element;
  * `ratingClasses` — the `class` token list of
    `art.select_one("p.star-rating")`; `none` models an absent element. -/
structure ProductNode where
  titleAttr : Option String
  priceText : Option String
  availabilityText : Option String
  ratingClasses : Option (List String)
  deriving DecidableEq, Repr

/-- A fetched listing page, as the list of its product nodes. -/
abbrev Page := List ProductNode

/-- One dict appended to `books` by `parse_books`. -/
structure RawBookRecord where
  title : String
  price_raw : String
  availability : String
  rating : Option String
  deriving DecidableEq, Repr

/-- A row of the final DataFrame: the raw record plus the `price_clean`
column computed by `scrape_books`. -/
structure NormalizedBookRecord extends RawBookRecord where
  price_clean : ℚ
  deriving DecidableEq, Repr

/-- The body of the `for art in articles` loop of `parse_books`: reads
`title`, `price_raw` and `availability` (each raising when missing), and
`rating := rating_tag["class"][1] if rating_tag and len(rating_tag["class"]) > 1
else None`. -/
def parseBook (art : ProductNode) : Except ScrapeError RawBookRecord :=
  match art.titleAttr with
  | none => .error .parseError
  | some title =>
    match art.priceText with
    | none => .error .parseError
    | some price_text =>
      match art.availabilityText with
      | none => .error .parseError
      | some avail =>
        let rating : Option String :=
          match art.ratingClasses with
          | none => none
          | some cls => if h : 1 < cls.length then some (cls.get ⟨1, h⟩) else none
        .ok ⟨title, price_text, avail, rating⟩

/-- `parse_books`: iterates over the page's product nodes in document
order, appending one record per node; the first node whose required data is
missing aborts the whole call with the raised error. -/
def parse_books (arts : Page) : Except ScrapeError (List RawBookRecord) :=
  match arts with
  | [] => .ok []
  | art :: rest =>
    match parseBook art with
    | .error e => .error e
    | .ok b =>
      match parse_books rest with
      | .error e => .error e
      | .ok bs => .ok (b :: bs)

/-- Character class kept by the regex `[^0-9.]` replacement in
`scrape_books` (everything else is removed). -/
def isPriceChar (c : Char) : Bool := c.isDigit || c == '.'

/-- `.str.replace(r"[^0-9.]", "", regex=True)` applied to one cell. -/
def cleanPriceStr (s : String) : String := String.mk (s.data.filter isPriceChar)

/-- Value of a list of decimal digit characters read as a base-10 numeral
(the empty list reads as 0). -/
def digitsVal (cs : List Char) : ℕ := cs.foldl (fun a c => 10 * a + (c.toNat - 48)) 0

/-- Python's `float()` conversion as `astype(float)` applies it, restricted
to its call site: the argument is always a string over the alphabet
{digits, `.`} (the output of `cleanPriceStr`), and on that alphabet
`float` succeeds exactly when the string has at most one dot and at least
one digit, in which case it is exact decimal parsing.  Failure is the
`ValueError` carrying the offending (filtered) string. -/
def astype_float (s : String) : Except ScrapeError ℚ :=
  if s.data.all isPriceChar = true ∧ s.data.count '.' ≤ 1 ∧ s.data.any Char.isDigit = true then
    .ok ((digitsVal (s.data.takeWhile (fun c => c ≠ '.')) : ℚ)
      + (digitsVal ((s.data.dropWhile (fun c => c ≠ '.')).tail) : ℚ)
        / (10 : ℚ) ^ ((s.data.dropWhile (fun c => c ≠ '.')).tail.length))
  else .error (.normalizationError s)

/-- The per-cell composition of the price-cleaning pipeline
`df["price_raw"].str.replace(r"[^0-9.]", "", regex=True).astype(float)`. -/
def price_clean_of (price_raw : String) : Except ScrapeError ℚ :=
  astype_float (cleanPriceStr price_raw)

/-- Computes one row's `price_clean` and attaches it to the record. -/
def attachPrice (b : RawBookRecord) : Except ScrapeError NormalizedBookRecord :=
  match price_clean_of b.price_raw with
  | .error e => .error e
  | .ok q => .ok ⟨b, q⟩

/-- Elementwise application of the price-cleaning pipeline down the
`price_raw` column, aborting with the first conversion failure. -/
def normalizeAll (books : List RawBookRecord) : Except ScrapeError (List NormalizedBookRecord) :=
  match books with
  | [] => .ok []
  | b :: rest =>
    match attachPrice b with
    | .error e => .error e
    | .ok n =>
      match normalizeAll rest with
      | .error e => .error e
      | .ok ns => .ok (n :: ns)

/-- The tail of `scrape_books` after the pagination loop:
`df = pd.DataFrame(all_books)` followed by the `price_clean` assignment.
`pd.DataFrame` of an empty list of dicts produces a DataFrame with no
columns at all, so `df["price_raw"]` raises `KeyError: price_raw`; on a
non-empty list every dict has the `price_raw` key and the column exists. -/
def assemble (all_books : List RawBookRecord) :
    Except ScrapeError (List NormalizedBookRecord) :=
  match all_books with
  | [] => .error (.missingColumn "price_raw")
  | _ => normalizeAll all_books

/-- Module-level constant `BASE_URL`. -/
def BASE_URL : String := "https://books.toscrape.com/"

/-- URL chosen by the loop body of `scrape_books` for a given page number:
`BASE_URL` for page 1, `f"{BASE_URL}catalogue/page-{page}.html"` otherwise. -/
def pageUrl (page : ℕ) : String :=
  if page = 1 then BASE_URL
  else BASE_URL ++ "catalogue/page-" ++ Nat.repr page ++ ".html"

/-- One iteration of the pagination loop of `scrape_books` for page
number `k`: choose the URL, `html = get_page(url)` (the fetch oracle,
propagating its raised error), then `page_books = parse_books(html)`. -/
def perPage (fetch : String → Except ScrapeError Page) (k : ℕ) :
    Except ScrapeError (List RawBookRecord) :=
  match fetch (pageUrl k) with
  | .error e => .error e
  | .ok page => parse_books page

/-- The records page `k` contributes on success (and `[]` on failure, a
value only used when success is known). -/
def pageRecords (fetch : String → Except ScrapeError Page) (k : ℕ) :
    List RawBookRecord :=
  match perPage fetch k with
  | .ok bs => bs
  | .error _ => []

/-- The per-page record count reported by the Record Extractor for page
`k` (`len(page_books)` in the loop's progress line). -/
def recordCount (fetch : String → Except ScrapeError Page) (k : ℕ) : ℕ :=
  (pageRecords fetch k).length

/-- The pagination loop `for page in range(1, num_pages + 1)` of
`scrape_books`, run over an explicit list of page numbers, each iteration
being `perPage`.  Returns the list of URLs passed to `get_page`, in the
order the fetches are issued (fetching stops at the first raised error),
together with either the first raised error or the accumulated
`all_books` list. -/
def scrapePages (fetch : String → Except ScrapeError Page) :
    List ℕ → List String × Except ScrapeError (List RawBookRecord)
  | [] => ([], .ok [])
  | p :: rest =>
    match perPage fetch p with
    | .error e => ([pageUrl p], .error e)
    | .ok books =>
      match scrapePages fetch rest with
      | (urls, .error e) => (pageUrl p :: urls, .error e)
      | (urls, .ok more) => (pageUrl p :: urls, .ok (books ++ more))

/-- `scrape_books(num_pages)`: runs the pagination loop over pages
`1 .. num_pages`, then assembles the DataFrame and its `price_clean`
column.  The first component is the trace of URLs fetched; the second is
the returned DataFrame or the propagated exception. -/
def scrape_books (fetch : String → Except ScrapeError Page) (num_pages : ℕ) :
    List String × Except ScrapeError (List NormalizedBookRecord) :=
  let sp := scrapePages fetch (List.range' 1 num_pages)
  (sp.1,
    match sp.2 with
    | .error e => .error e
    | .ok all_books => assemble all_books)

/-- The rating-ordinal vocabulary named by the spec's data model
({One, Two, Three, Four, Five}); the source never checks membership in
it. -/
def ratingVocabulary : List String := ["One", "Two", "Three", "Four", "Five"]

/- Concrete fixtures used to exercise the definitions on closed inputs. -/

/-- Fixture product node with the site's canonical shape. -/
def goodNode : ProductNode :=
  ⟨some "A Light in the Attic", some "£51.77", some "In stock", some ["star-rating", "Three"]⟩

/-- The record `parse_books` extracts from `goodNode`. -/
def goodRecord : RawBookRecord :=
  ⟨"A Light in the Attic", "£51.77", "In stock", some "Three"⟩

/-- One-page site: the root listing holds a single product node. -/
def fetchC1 : String → Except ScrapeError Page := fun url =>
  if url = pageUrl 1 then .ok [goodNode] else .error (.fetchError url)

/-- Product node whose price element is missing. -/
def badPriceNode : ProductNode :=
  ⟨some "Tipping the Velvet", none, some "In stock", some ["star-rating", "One"]⟩

/-- Product node whose rating element has a single class token. -/
def oneTokenNode : ProductNode :=
  ⟨some "Soumission", some "£50.10", some "In stock", some ["star-rating"]⟩

/-- Node repeated on two pages to exercise duplicate preservation. -/
def dupNodeA : ProductNode :=
  ⟨some "Duplicate Title", some "£7", some "In stock", some ["star-rating", "Two"]⟩

/-- Companion node on page 1, with an absent rating element. -/
def dupNodeB : ProductNode :=
  ⟨some "Other Title", some "£9", some "In stock", none⟩

/-- Record extracted from `dupNodeA`. -/
def dupRecordA : RawBookRecord := ⟨"Duplicate Title", "£7", "In stock", some "Two"⟩

/-- Record extracted from `dupNodeB`. -/
def dupRecordB : RawBookRecord := ⟨"Other Title", "£9", "In stock", none⟩

/-- Two-page site whose second page repeats a title from the first. -/
def fetchC6 : String → Except ScrapeError Page := fun url =>
  if url = pageUrl 1 then .ok [dupNodeA, dupNodeB]
  else if url = pageUrl 2 then .ok [dupNodeA]
  else .error (.fetchError url)

/-- Per-page records of the `fetchC6` site. -/
def recsC6 : ℕ → List RawBookRecord := fun k =>
  if k = 1 then [dupRecordA, dupRecordB] else if k = 2 then [dupRecordA] else []

/-- Product node with an empty `title` attribute and an off-vocabulary
second rating class token — both accepted verbatim by `parse_books`. -/
def emptyTitleNode : ProductNode :=
  ⟨some "", some "£2", some "In stock", some ["star-rating", "Garbage"]⟩

/-- One-page site serving `emptyTitleNode`. -/
def fetchC7 : String → Except ScrapeError Page := fun url =>
  if url = pageUrl 1 then .ok [emptyTitleNode] else .error (.fetchError url)

/-- Three-page site whose second page fails with a transport error. -/
def fetchC8 : String → Except ScrapeError Page := fun url =>
  if url = pageUrl 2 then .error (.fetchError (pageUrl 2))
  else if url = pageUrl 1 then .ok [goodNode]
  else .ok []

/-- Site on which every page exists but carries zero product nodes. -/
def fetchEmptyPages : String → Except ScrapeError Page := fun _ => .ok []

/-- Product node whose rating element's second class token lies outside the
rating-ordinal vocabulary. -/
def bananaNode : ProductNode :=
  ⟨some "Some Book", some "£3", some "In stock", some ["star-rating", "Banana"]⟩

/- Helper lemmas about the embedded definitions. -/

theorem astype_float_ok_nonneg (s : String) (q : ℚ) (h : astype_float s = .ok q) :
    0 ≤ q := by
  unfold astype_float at h
  split at h
  · injection h with h
    subst h
    positivity
  · exact absurd h (by simp)

theorem price_clean_of_ok_nonneg (s : String) (q : ℚ) (h : price_clean_of s = .ok q) :
    0 ≤ q :=
  astype_float_ok_nonneg _ q h

theorem parseBook_error_eq (n : ProductNode) (e : ScrapeError)
    (h : parseBook n = .error e) : e = .parseError := by
  unfold parseBook at h
  rcases n with ⟨t, p, a, r⟩
  cases t <;> cases p <;> cases a <;> simp_all

theorem parseBook_missing (n : ProductNode)
    (h : n.titleAttr = none ∨ n.priceText = none ∨ n.availabilityText = none) :
    parseBook n = .error .parseError := by
  unfold parseBook
  rcases n with ⟨t, p, a, r⟩
  rcases h with h | h | h <;> simp_all <;> cases t <;> simp <;> cases p <;> simp_all

theorem parse_books_error_of_mem (pg : Page) (n : ProductNode) (hmem : n ∈ pg)
    (hn : parseBook n = .error .parseError) :
    parse_books pg = .error .parseError := by
  induction pg with
  | nil => cases hmem
  | cons a rest ih =>
    rcases List.mem_cons.mp hmem with rfl | hmem'
    · simp [parse_books, hn]
    · cases ha : parseBook a with
      | error e =>
        rw [parseBook_error_eq a e ha] at ha
        simp [parse_books, ha]
      | ok b => simp [parse_books, ha, ih hmem']

theorem normalizeAll_ok_map (bs : List RawBookRecord) (ns : List NormalizedBookRecord)
    (h : normalizeAll bs = .ok ns) :
    ns.map (fun r => r.toRawBookRecord) = bs := by
  induction bs generalizing ns with
  | nil =>
    simp only [normalizeAll] at h
    cases h
    simp
  | cons b rest ih =>
    rw [normalizeAll] at h
    cases hb : attachPrice b with
    | error e => rw [hb] at h; cases h
    | ok n =>
      rw [hb] at h
      cases hr : normalizeAll rest with
      | error e => rw [hr] at h; cases h
      | ok more =>
        rw [hr] at h
        injection h with h
        subst h
        have hbn : n.toRawBookRecord = b := by
          unfold attachPrice at hb
          split at hb
          · cases hb
          · injection hb with hb; subst hb; rfl
        simp [hbn, ih more hr]

theorem normalizeAll_ok_mem (bs : List RawBookRecord) (ns : List NormalizedBookRecord)
    (h : normalizeAll bs = .ok ns) :
    ∀ r ∈ ns, price_clean_of r.price_raw = .ok r.price_clean := by
  induction bs generalizing ns with
  | nil =>
    simp only [normalizeAll] at h
    cases h
    simp
  | cons b rest ih =>
    rw [normalizeAll] at h
    cases hb : attachPrice b with
    | error e => rw [hb] at h; cases h
    | ok n =>
      rw [hb] at h
      cases hr : normalizeAll rest with
      | error e => rw [hr] at h; cases h
      | ok more =>
        rw [hr] at h
        injection h with h
        subst h
        intro r hmem
        rcases List.mem_cons.mp hmem with rfl | hmem'
        · unfold attachPrice at hb
          split at hb
          · cases hb
          · next q hq =>
            injection hb with hb
            subst hb
            exact hq
        · exact ih more hr r hmem'

theorem assemble_ok (bs : List RawBookRecord) (ns : List NormalizedBookRecord)
    (h : assemble bs = .ok ns) : normalizeAll bs = .ok ns := by
  unfold assemble at h
  split at h
  · cases h
  · exact h

theorem scrapePages_ok_spec (fetch : String → Except ScrapeError Page) (ps : List ℕ)
    (books : List RawBookRecord) (h : (scrapePages fetch ps).2 = .ok books) :
    (scrapePages fetch ps).1 = ps.map pageUrl ∧
      books = (ps.map (pageRecords fetch)).flatten ∧
      ∀ k ∈ ps, perPage fetch k = .ok (pageRecords fetch k) := by
  induction ps generalizing books with
  | nil =>
    simp only [scrapePages] at h
    cases h
    simp [scrapePages]
  | cons p rest ih =>
    rw [scrapePages] at h ⊢
    cases hpp : perPage fetch p with
    | error e => rw [hpp] at h; injection h
    | ok bs =>
      rw [hpp] at h
      rcases hsp : scrapePages fetch rest with ⟨urls, r⟩
      rw [hsp] at h
      cases r with
      | error e => injection h
      | ok more =>
        injection h with h
        subst h
        have hmore : (scrapePages fetch rest).2 = .ok more := by rw [hsp]
        obtain ⟨ih1, ih2, ih3⟩ := ih more hmore
        have hurls : urls = List.map pageUrl rest := by rw [← ih1, hsp]
        have hpr : pageRecords fetch p = bs := by simp [pageRecords, hpp]
        refine ⟨?_, ?_, ?_⟩
        · show pageUrl p :: urls = List.map pageUrl (p :: rest)
          rw [List.map_cons, hurls]
        · show bs ++ more = (List.map (pageRecords fetch) (p :: rest)).flatten
          rw [List.map_cons, List.flatten_cons, hpr, ← ih2]
        · intro k hk
          rcases List.mem_cons.mp hk with rfl | hk'
          · rw [hpp, hpr]
          · exact ih3 k hk'

theorem scrapePages_eq_of_ok (fetch : String → Except ScrapeError Page) (ps : List ℕ)
    (recs : ℕ → List RawBookRecord) (h : ∀ k ∈ ps, perPage fetch k = .ok (recs k)) :
    scrapePages fetch ps = (ps.map pageUrl, .ok ((ps.map recs).flatten)) := by
  induction ps with
  | nil => rfl
  | cons p rest ih =>
    have hp := h p (List.mem_cons_self p rest)
    have hrest := ih (fun k hk => h k (List.mem_cons_of_mem p hk))
    rw [scrapePages, hp, hrest]
    rfl

theorem scrapePages_error_append (fetch : String → Except ScrapeError Page)
    (ps ps2 : List ℕ) (k : ℕ) (e : ScrapeError)
    (hok : ∀ j ∈ ps, ∃ bs, perPage fetch j = .ok bs)
    (hk : perPage fetch k = .error e) :
    scrapePages fetch (ps ++ k :: ps2) = (ps.map pageUrl ++ [pageUrl k], .error e) := by
  induction ps with
  | nil =>
    rw [List.nil_append, scrapePages, hk]
    rfl
  | cons j ps ih =>
    obtain ⟨bs, hj⟩ := hok j (List.mem_cons_self j ps)
    have ih' := ih (fun x hx => hok x (List.mem_cons_of_mem j hx))
    rw [List.cons_append, scrapePages, hj, ih']
    rfl

theorem scrape_books_fst (fetch : String → Except ScrapeError Page) (N : ℕ) :
    (scrape_books fetch N).1 = (scrapePages fetch (List.range' 1 N)).1 := rfl

theorem scrape_books_ok_inv (fetch : String → Except ScrapeError Page) (N : ℕ)
    (table : List NormalizedBookRecord) (h : (scrape_books fetch N).2 = .ok table) :
    ∃ books, (scrapePages fetch (List.range' 1 N)).2 = .ok books ∧
      assemble books = .ok table := by
  simp only [scrape_books] at h
  cases hsp : (scrapePages fetch (List.range' 1 N)).2 with
  | error e => rw [hsp] at h; injection h
  | ok books =>
    rw [hsp] at h
    exact ⟨books, rfl, h⟩

theorem astype_float_51_77 : astype_float "51.77" = .ok (5177 / 100 : ℚ) := by
  unfold astype_float
  rw [if_pos]
  · have h1 : digitsVal ("51.77".data.takeWhile (fun c => c ≠ '.')) = 51 := by decide
    have h2 : digitsVal (("51.77".data.dropWhile (fun c => c ≠ '.')).tail) = 77 := by decide
    have h3 : (("51.77".data.dropWhile (fun c => c ≠ '.')).tail).length = 2 := by decide
    rw [h1, h2, h3]
    simp only [Except.ok.injEq]
    norm_num
  · refine ⟨by decide, by decide, by decide⟩

/-- C2: whenever the price-cleaning pipeline succeeds on a `price_raw`
string, the resulting `price_clean` is the non-negative number parsed from
the string obtained by deleting every character that is neither a decimal
digit nor `.`; in particular the input "£51.77", the input "Â51.77", a
prefix of any single non-kept (e.g. mis-encoded) character followed by
"51.77", and the already-clean "51.77" all map to exactly 51.77. -/
theorem claimC2 (s : String) (q : ℚ) (h : price_clean_of s = .ok q) :
    0 ≤ q ∧
    price_clean_of "£51.77" = .ok (5177 / 100 : ℚ) ∧
    price_clean_of "Â51.77" = .ok (5177 / 100 : ℚ) ∧
    (∀ c : Char, isPriceChar c = false →
      price_clean_of (String.mk (c :: "51.77".data)) = .ok (5177 / 100 : ℚ)) ∧
    price_clean_of "51.77" = .ok (5177 / 100 : ℚ) := by
  refine ⟨price_clean_of_ok_nonneg s q h, ?_, ?_, ?_, ?_⟩
  · show astype_float (cleanPriceStr "£51.77") = _
    rw [show cleanPriceStr "£51.77" = "51.77" from by decide]
    exact astype_float_51_77
  · show astype_float (cleanPriceStr "Â51.77") = _
    rw [show cleanPriceStr "Â51.77" = "51.77" from by decide]
    exact astype_float_51_77
  · intro c hc
    show astype_float (cleanPriceStr (String.mk (c :: "51.77".data))) = _
    have hclean : cleanPriceStr (String.mk (c :: "51.77".data)) = "51.77" := by
      unfold cleanPriceStr
      show String.mk ((c :: "51.77".data).filter isPriceChar) = "51.77"
      rw [List.filter_cons_of_neg (by simp [hc])]
      decide
    rw [hclean]
    exact astype_float_51_77
  · show astype_float (cleanPriceStr "51.77") = _
    rw [show cleanPriceStr "51.77" = "51.77" from by decide]
    exact astype_float_51_77

/-- C2 witness: the pipeline on the concrete input "£51.77". -/
theorem claimC2_witness : price_clean_of "£51.77" = .ok (5177 / 100 : ℚ) := by
  obtain ⟨q, hq⟩ : ∃ q, price_clean_of "£51.77" = .ok q := ⟨_, rfl⟩
  exact (claimC2 "£51.77" q hq).2.1

/-- C3: when the digit-and-dot-filtered remainder of a `price_raw` string
is empty, has two or more decimal points, or consists only of non-digits
(so numeric parsing fails), the pipeline fails with the normalization
error identifying the offending filtered string, and never returns a
value; in particular the inputs "" and "abc" both fail this way. -/
theorem claimC3 (s : String)
    (h : cleanPriceStr s = "" ∨ 2 ≤ (cleanPriceStr s).data.count '.' ∨
      (cleanPriceStr s).data.all (fun c => !c.isDigit) = true) :
    price_clean_of s = .error (.normalizationError (cleanPriceStr s)) ∧
    (∀ q : ℚ, price_clean_of s ≠ .ok q) ∧
    price_clean_of "" = .error (.normalizationError "") ∧
    price_clean_of "abc" = .error (.normalizationError "") := by
  have hmain : price_clean_of s = .error (.normalizationError (cleanPriceStr s)) := by
    show astype_float (cleanPriceStr s) = _
    unfold astype_float
    rw [if_neg]
    rintro ⟨hall, hcount, hany⟩
    rcases h with h | h | h
    · rw [h] at hany
      exact absurd hany (by decide)
    · omega
    · rw [List.any_eq_true] at hany
      obtain ⟨c, hc, hdig⟩ := hany
      rw [List.all_eq_true] at h
      have hcontra := h c hc
      simp [hdig] at hcontra
  refine ⟨hmain, ?_, by decide, by decide⟩
  intro q hq
  rw [hmain] at hq
  injection hq

/-- C3 witness: the pipeline on the concrete input "abc". -/
theorem claimC3_witness :
    price_clean_of "abc" = .error (.normalizationError (cleanPriceStr "abc")) :=
  (claimC3 "abc" (by decide)).1

/-- C4: a page containing a product node that is missing its heading
anchor's title attribute, or its price element, or its stock-status
element, makes `parse_books` raise the parse error instead of returning a
record set. -/
theorem claimC4 (pg : Page) (node : ProductNode) (hmem : node ∈ pg)
    (hmiss : node.titleAttr = none ∨ node.priceText = none ∨ node.availabilityText = none) :
    parse_books pg = .error .parseError ∧ ∀ recs, parse_books pg ≠ .ok recs := by
  have h1 := parse_books_error_of_mem pg node hmem (parseBook_missing node hmiss)
  refine ⟨h1, ?_⟩
  intro recs hr
  rw [h1] at hr
  exact Except.noConfusion hr

/-- C4 witness: a two-node page whose second node lacks its price element. -/
theorem claimC4_witness : parse_books [goodNode, badPriceNode] = .error .parseError :=
  (claimC4 [goodNode, badPriceNode] badPriceNode (by decide) (by decide)).1

/-- C5: a product node whose rating element is absent, or has fewer than
two class tokens, is extracted with `rating = null` and no error; the rest
of the record (title, price, availability) is extracted normally. -/
theorem claimC5 (node : ProductNode) (t p a : String)
    (ht : node.titleAttr = some t) (hp : node.priceText = some p)
    (ha : node.availabilityText = some a)
    (hr : node.ratingClasses = none ∨
      ∃ toks, node.ratingClasses = some toks ∧ toks.length < 2) :
    parseBook node = .ok ⟨t, p, a, none⟩ := by
  unfold parseBook
  rw [ht, hp, ha]
  rcases hr with hr | ⟨toks, hr, hlen⟩
  · rw [hr]
  · rw [hr]
    show (Except.ok (⟨t, p, a, if h : 1 < toks.length then some (toks.get ⟨1, h⟩) else none⟩
        : RawBookRecord) : Except ScrapeError RawBookRecord)
      = Except.ok (⟨t, p, a, none⟩ : RawBookRecord)
    rw [dif_neg (by omega)]

/-- C5 witness: a node whose rating element has one class token. -/
theorem claimC5_witness :
    parseBook oneTokenNode = .ok ⟨"Soumission", "£50.10", "In stock", none⟩ :=
  claimC5 oneTokenNode "Soumission" "£50.10" "In stock" rfl rfl rfl
    (Or.inr ⟨["star-rating"], rfl, by decide⟩)

/-- C10: a product node whose rating element has at least two class tokens
gets the second token recorded verbatim as its rating, with no validation
against the rating-ordinal vocabulary; on the concrete `bananaNode` the
recorded rating is the string "Banana", which lies outside that
vocabulary. -/
theorem claimC10 (node : ProductNode) (t p a tok : String) (toks : List String)
    (ht : node.titleAttr = some t) (hp : node.priceText = some p)
    (ha : node.availabilityText = some a) (hr : node.ratingClasses = some toks)
    (htok : toks[1]? = some tok) :
    parseBook node = .ok ⟨t, p, a, some tok⟩ ∧
    parseBook bananaNode = .ok ⟨"Some Book", "£3", "In stock", some "Banana"⟩ ∧
    "Banana" ∉ ratingVocabulary := by
  refine ⟨?_, by decide, by decide⟩
  unfold parseBook
  rw [ht, hp, ha, hr]
  have hlt : 1 < toks.length := by
    by_contra hle
    rw [List.getElem?_eq_none (by omega)] at htok
    exact Option.noConfusion htok
  have hget : toks.get ⟨1, hlt⟩ = tok := by
    have hx : some (toks.get ⟨1, hlt⟩) = some tok := by
      rw [← htok, List.getElem?_eq_getElem hlt]
      rfl
    exact Option.some.inj hx
  show (Except.ok (⟨t, p, a, if h : 1 < toks.length then some (toks.get ⟨1, h⟩) else none⟩
      : RawBookRecord) : Except ScrapeError RawBookRecord)
    = Except.ok (⟨t, p, a, some tok⟩ : RawBookRecord)
  rw [dif_pos hlt, hget]

/-- C10 witness: the theorem applied at the concrete `bananaNode`. -/
theorem claimC10_witness :
    parseBook bananaNode = .ok ⟨"Some Book", "£3", "In stock", some "Banana"⟩ :=
  (claimC10 bananaNode "Some Book" "£3" "In stock" "Banana" ["star-rating", "Banana"]
    rfl rfl rfl rfl (by decide)).1

/-- C1: for every page count `N ≥ 1` for which `scrape_books` returns a
table, it has issued exactly `N` fetches in strictly increasing page order
— the trace of fetched URLs is pages `1..N` in order, with page 1 at the
root listing URL `BASE_URL` and every page `k ≥ 2` at
`catalogue/page-{k}.html` under `BASE_URL` — and the table's row count
equals the sum over the pages of the record counts returned by
`parse_books`. -/
theorem claimC1 (fetch : String → Except ScrapeError Page) (N : ℕ) (hN : 1 ≤ N)
    (table : List NormalizedBookRecord) (h : (scrape_books fetch N).2 = .ok table) :
    (scrape_books fetch N).1 = (List.range' 1 N).map pageUrl ∧
    (scrape_books fetch N).1.length = N ∧
    pageUrl 1 = BASE_URL ∧
    (∀ k, 2 ≤ k → pageUrl k = BASE_URL ++ "catalogue/page-" ++ Nat.repr k ++ ".html") ∧
    table.length = ((List.range' 1 N).map (recordCount fetch)).sum := by
  obtain ⟨books, hsp, hasm⟩ := scrape_books_ok_inv fetch N table h
  obtain ⟨h1, h2, h3⟩ := scrapePages_ok_spec fetch _ books hsp
  have htrace : (scrape_books fetch N).1 = (List.range' 1 N).map pageUrl := by
    rw [scrape_books_fst, h1]
  have hmap := normalizeAll_ok_map books table (assemble_ok _ _ hasm)
  have hlen : table.length = books.length := by
    rw [← hmap, List.length_map]
  refine ⟨htrace, ?_, rfl, ?_, ?_⟩
  · rw [htrace, List.length_map, List.length_range']
  · intro k hk
    unfold pageUrl
    rw [if_neg (by omega)]
  · rw [hlen, h2, List.length_flatten, List.map_map]
    rfl

/-- C1 witness: the theorem applied at a one-page fixture run. -/
theorem claimC1_witness : (scrape_books fetchC1 1).1 = (List.range' 1 1).map pageUrl := by
  obtain ⟨table, ht⟩ : ∃ t, (scrape_books fetchC1 1).2 = .ok t := ⟨_, rfl⟩
  exact (claimC1 fetchC1 1 (by decide) table ht).1

/-- C6: the rows of a returned table are, in order, exactly the
concatenation of the per-page record lists in page order (each of which
`parse_books` emits in document order): no filtering, grouping or
deduplication happens, every extracted record appears exactly once, and
duplicate titles across pages are preserved. -/
theorem claimC6 (fetch : String → Except ScrapeError Page) (N : ℕ)
    (recs : ℕ → List RawBookRecord)
    (h : ∀ k ∈ List.range' 1 N, perPage fetch k = .ok (recs k))
    (table : List NormalizedBookRecord)
    (hok : (scrape_books fetch N).2 = .ok table) :
    table.map (fun r => r.toRawBookRecord) = ((List.range' 1 N).map recs).flatten := by
  obtain ⟨books, hsp, hasm⟩ := scrape_books_ok_inv fetch N table hok
  have hmap := normalizeAll_ok_map books table (assemble_ok _ _ hasm)
  have heq := scrapePages_eq_of_ok fetch (List.range' 1 N) recs h
  rw [heq] at hsp
  injection hsp with hsp
  rw [hmap, ← hsp]

/-- C6 witness: two pages whose titles collide; both copies survive, in
page order then document order. -/
theorem claimC6_witness :
    (scrape_books fetchC6 2).2.map (fun t => t.map fun r => r.toRawBookRecord)
      = .ok [dupRecordA, dupRecordB, dupRecordA] := by
  obtain ⟨table, ht⟩ : ∃ t, (scrape_books fetchC6 2).2 = .ok t := ⟨_, rfl⟩
  have h6 := claimC6 fetchC6 2 recsC6 (by decide) table ht
  rw [ht]
  show Except.ok (table.map fun r => r.toRawBookRecord) = _
  rw [h6]
  decide

/-- C7 (amended): in every table returned by the assembly step each record
has a well-formed `price_clean` — the successful parse of its filtered
`price_raw`, hence non-negative; `rating` may be null; but `title` and
`availability` are carried verbatim and may be empty, and `rating` is not
validated against the rating-ordinal vocabulary. -/
theorem claimC7 (fetch : String → Except ScrapeError Page) (N : ℕ)
    (table : List NormalizedBookRecord) (hok : (scrape_books fetch N).2 = .ok table) :
    ∀ r ∈ table, 0 ≤ r.price_clean ∧ price_clean_of r.price_raw = .ok r.price_clean := by
  obtain ⟨books, hsp, hasm⟩ := scrape_books_ok_inv fetch N table hok
  intro r hr
  have h1 := normalizeAll_ok_mem books table (assemble_ok _ _ hasm) r hr
  exact ⟨price_clean_of_ok_nonneg _ _ h1, h1⟩

/-- C7 counterexample: a returned table whose single record has an empty
`title` and the off-vocabulary rating "Garbage", refuting the claim that
every assembled record has a non-empty title and an ordinal-or-null
rating. -/
theorem claimC7_counterexample :
    (scrape_books fetchC7 1).2.map (fun t => t.map fun r => r.toRawBookRecord)
      = .ok [⟨"", "£2", "In stock", some "Garbage"⟩] ∧
    "Garbage" ∉ ratingVocabulary ∧ (some "Garbage" : Option String) ≠ none := by
  refine ⟨?_, by decide, by decide⟩
  rfl

/-- C7 witness: the amended theorem applied at the one-page fixture run;
every row of the returned table has a non-negative `price_clean`. -/
theorem claimC7_witness :
    (scrape_books fetchC7 1).2.map
      (fun t => t.all fun r => decide (0 ≤ r.price_clean)) = .ok true := by
  obtain ⟨table, ht⟩ : ∃ t, (scrape_books fetchC7 1).2 = .ok t := ⟨_, rfl⟩
  have h := claimC7 fetchC7 1 table ht
  rw [ht]
  show Except.ok (table.all fun r => decide (0 ≤ r.price_clean)) = .ok true
  have hall : (table.all fun r => decide (0 ≤ r.price_clean)) = true := by
    rw [List.all_eq_true]
    intro r hr
    exact decide_eq_true (h r hr).1
  rw [hall]

/-- C8: if fetching page `k` (1 ≤ k ≤ N) raises the transport error while
pages `1..k-1` succeeded, the whole scrape evaluates to that fetch error:
the loop stops after fetching pages `1..k`, no table is returned, and the
records gathered from pages `1..k-1` are discarded (there is no partial
result). -/
theorem claimC8 (fetch : String → Except ScrapeError Page) (N k : ℕ) (u : String)
    (hk1 : 1 ≤ k) (hkN : k ≤ N)
    (hprev : ∀ j, 1 ≤ j → j < k → ∃ bs, perPage fetch j = .ok bs)
    (hfail : fetch (pageUrl k) = .error (.fetchError u)) :
    (scrape_books fetch N).2 = .error (.fetchError u) ∧
    (scrape_books fetch N).1 = (List.range' 1 k).map pageUrl ∧
    ∀ table, (scrape_books fetch N).2 ≠ .ok table := by
  have herr : perPage fetch k = .error (.fetchError u) := by
    unfold perPage
    rw [hfail]
  have hok : ∀ j ∈ List.range' 1 (k - 1), ∃ bs, perPage fetch j = .ok bs := by
    intro j hj
    rw [List.mem_range'_1] at hj
    exact hprev j hj.1 (by omega)
  have hsplit : List.range' 1 N = List.range' 1 (k - 1) ++ k :: List.range' (k + 1) (N - k) := by
    have h1 : List.range' 1 (k - 1) ++ List.range' (1 + (k - 1)) (N - (k - 1))
        = List.range' 1 ((N - (k - 1)) + (k - 1)) := List.range'_append_1 1 (k - 1) (N - (k - 1))
    have e1 : 1 + (k - 1) = k := by omega
    have e2 : (N - (k - 1)) + (k - 1) = N := by omega
    have e3 : N - (k - 1) = (N - k) + 1 := by omega
    rw [e1, e2, e3] at h1
    rw [← h1, List.range'_succ]
  have hpair := scrapePages_error_append fetch (List.range' 1 (k - 1))
    (List.range' (k + 1) (N - k)) k (.fetchError u) hok herr
  have h2 : scrapePages fetch (List.range' 1 N)
      = ((List.range' 1 (k - 1)).map pageUrl ++ [pageUrl k], .error (.fetchError u)) := by
    rw [hsplit]
    exact hpair
  have htrace : (List.range' 1 (k - 1)).map pageUrl ++ [pageUrl k]
      = (List.range' 1 k).map pageUrl := by
    have hk' : List.range' 1 k = List.range' 1 (k - 1) ++ [k] := by
      have hc := List.range'_1_concat 1 (k - 1)
      rw [show (k - 1) + 1 = k from by omega, show 1 + (k - 1) = k from by omega] at hc
      exact hc
    rw [hk', List.map_append]
    rfl
  have hsnd : (scrape_books fetch N).2 = .error (.fetchError u) := by
    simp only [scrape_books]
    rw [h2]
  have hfst : (scrape_books fetch N).1 = (List.range' 1 k).map pageUrl := by
    rw [scrape_books_fst, h2, ← htrace]
  refine ⟨hsnd, hfst, ?_⟩
  intro table htab
  rw [hsnd] at htab
  exact Except.noConfusion htab

/-- C8 witness: the second of three requested pages fails with a transport
error; the scrape returns that error and no table. -/
theorem claimC8_witness :
    (scrape_books fetchC8 3).2 = .error (.fetchError (pageUrl 2)) := by
  refine (claimC8 fetchC8 3 2 (pageUrl 2) (by decide) (by decide) ?_ (by decide)).1
  intro j h1 h2
  have hj : j = 1 := by omega
  subst hj
  exact ⟨[goodRecord], by decide⟩

/-- C9: when every fetched page parses to zero product nodes — even though
`parse_books` itself returns an empty record list without error — the
accumulated list is empty, `pd.DataFrame([])` has no `price_raw` column,
and `scrape_books` raises during price cleaning instead of returning an
empty table. -/
theorem claimC9 (fetch : String → Except ScrapeError Page) (N : ℕ) (hN : 1 ≤ N)
    (h : ∀ k ∈ List.range' 1 N, fetch (pageUrl k) = .ok ([] : Page)) :
    (scrape_books fetch N).2 = .error (.missingColumn "price_raw") ∧
    parse_books ([] : Page) = .ok [] := by
  have hpp : ∀ k ∈ List.range' 1 N,
      perPage fetch k = .ok ((fun _ => ([] : List RawBookRecord)) k) := by
    intro k hk
    unfold perPage
    rw [h k hk]
    rfl
  have heq := scrapePages_eq_of_ok fetch (List.range' 1 N) (fun _ => []) hpp
  have hflat : ∀ l : List ℕ, (l.map (fun _ => ([] : List RawBookRecord))).flatten = [] := by
    intro l
    induction l with
    | nil => rfl
    | cons a l ih =>
      simp only [List.map_cons, List.flatten_cons, List.nil_append]
      exact ih
  refine ⟨?_, rfl⟩
  simp only [scrape_books]
  rw [heq, hflat]
  rfl

/-- C9 witness: one requested page, zero product nodes on it. -/
theorem claimC9_witness :
    (scrape_books fetchEmptyPages 1).2 = .error (.missingColumn "price_raw") :=
  (claimC9 fetchEmptyPages 1 (by decide) (by decide)).1
